import Mathlib

/-!
Shallow embedding of the Nano-Utils C extension types:
`seq_view.c` (the `SequenceView` type) and `_c_module_proxy.c` (the
`ModuleProxyBase` type), together with theorems checking the
natural-language specification against the code.

The Python value universe is modelled by `PyVal`: machine integers,
lists of integers (the canonical backing sequences), and `SequenceView`
objects wrapping an arbitrary backing value.  CPython's fallible C API
calls are modelled with the explicit result type `PyResult`.
-/

namespace NanoUtils

/-- Python exception kinds relevant to the two modules, each carrying its
message text. -/
inductive PyErr where
  | indexError : String → PyErr
  | typeError : String → PyErr
  | valueError : String → PyErr
deriving DecidableEq, Repr

/-- Result of a fallible CPython API call: either a value or a raised
exception. -/
inductive PyResult (α : Type) where
  | ok : α → PyResult α
  | error : PyErr → PyResult α
deriving DecidableEq, Repr

/-- Python objects in scope for these modules: integers, lists of
integers (the backing sequences), and `SequenceView` objects wrapping a
backing object. -/
inductive PyVal where
  | int : Int → PyVal
  | list : List Int → PyVal
  | view : PyVal → PyVal
deriving DecidableEq, Repr

/-- Comparison operation selector, as in CPython's `richcompare` calls. -/
inductive CmpOp where
  | lt | le | eq | ne | gt | ge
deriving DecidableEq, Repr

/-- Py_TYPE(v)->tp_name for the modelled universe. -/
def typeName : PyVal → String
  | .int _ => "int"
  | .list _ => "list"
  | .view _ => "SequenceView"

/-- PY_SSIZE_T_MAX on a 64-bit build. -/
def SSIZE_MAX : Int := 2 ^ 63 - 1

/-- PY_SSIZE_T_MIN on a 64-bit build. -/
def SSIZE_MIN : Int := -(2 ^ 63)

/-- Clamping of an out-of-range Python int to the Py_ssize_t range, as
done by `_PyEval_SliceIndex` for slice components. -/
def clampSsize (i : Int) : Int :=
  if i < SSIZE_MIN then SSIZE_MIN else if i > SSIZE_MAX then SSIZE_MAX else i

/-- Unwraps nested `SequenceView` wrappers.  The view type's
`tp_richcompare` forwards every comparison to the backing object
(`PyObject_RichCompare(v->sequence, w, op)` in `seq_view.c`), and the
reflected-comparison protocol does the same when a view appears on the
right, so comparisons see through any number of view layers. -/
def stripViews : PyVal → PyVal
  | .view a => stripViews a
  | v => v

/-- Value equality of the non-view values, per Python semantics: ints by
numeric equality, lists element-wise, mixed kinds unequal. -/
def pyEqCore : PyVal → PyVal → Bool
  | .int a, .int b => a == b
  | .list a, .list b => a == b
  | _, _ => false

/-- Python `==` over the modelled universe; views forward to their
backing object on either side. -/
def pyEqB (v w : PyVal) : Bool :=
  pyEqCore (stripViews v) (stripViews w)

/-- Python lexicographic comparison of integer lists: the first
differing elements decide, otherwise the lengths do. -/
def intListCompare : List Int → List Int → Ordering
  | [], [] => .eq
  | [], _ :: _ => .lt
  | _ :: _, [] => .gt
  | a :: as, b :: bs =>
      match compare a b with
      | .eq => intListCompare as bs
      | o => o

/-- Python ordering of the non-view values: ints numerically, lists
lexicographically, mixed kinds raise TypeError. -/
def pyCmpCore : PyVal → PyVal → PyResult Ordering
  | .int a, .int b => .ok (compare a b)
  | .list a, .list b => .ok (intListCompare a b)
  | v, w =>
      .error (.typeError ("ordering not supported between instances of " ++
        typeName v ++ " and " ++ typeName w))

/-- Python ordering over the modelled universe; views forward to their
backing object on either side. -/
def pyCmp (v w : PyVal) : PyResult Ordering :=
  pyCmpCore (stripViews v) (stripViews w)

/-- PyObject_RichCompare over the modelled universe: `==`/`!=` never
fail, the four order comparisons fail on incompatible kinds. -/
def pyRichCompare (v w : PyVal) (op : CmpOp) : PyResult Bool :=
  match op with
  | .eq => .ok (pyEqB v w)
  | .ne => .ok (!pyEqB v w)
  | .lt =>
      match pyCmp v w with
      | .ok o => .ok (o == Ordering.lt)
      | .error e => .error e
  | .le =>
      match pyCmp v w with
      | .ok o => .ok (o == Ordering.lt || o == Ordering.eq)
      | .error e => .error e
  | .gt =>
      match pyCmp v w with
      | .ok o => .ok (o == Ordering.gt)
      | .error e => .error e
  | .ge =>
      match pyCmp v w with
      | .ok o => .ok (o == Ordering.gt || o == Ordering.eq)
      | .error e => .error e

/-- PySequence_Check: true for objects whose type has `sq_item` (here:
lists and views), false for ints. -/
def PySequence_Check : PyVal → Bool
  | .int _ => false
  | .list _ => true
  | .view _ => true

/-- The `tp_name` of the view type in `seq_view.c`. -/
def SequenceView_tp_name : String := "SequenceView"

/-- Modelled from the spec: ordered access by integer index, one of the
three capabilities of the sequence capability set. -/
def supportsIndexedAccess : PyVal → Bool
  | .int _ => false
  | .list _ => true
  | .view _ => true

/-- Modelled from the spec: a length query, one of the three
capabilities of the sequence capability set. -/
def supportsLength : PyVal → Bool
  | .int _ => false
  | .list _ => true
  | .view _ => true

/-- Modelled from the spec: a containment test, one of the three
capabilities of the sequence capability set. -/
def supportsContainment : PyVal → Bool
  | .int _ => false
  | .list _ => true
  | .view _ => true

/-- Modelled from the spec: the full sequence capability set {ordered
access by integer index, length, containment test}. -/
def hasSequenceCapabilities (v : PyVal) : Bool :=
  supportsIndexedAccess v && supportsLength v && supportsContainment v

/-- Embeds `SequenceView_check_sequence` from `seq_view.c`: rejects a
constructor argument that fails `PySequence_Check` with a TypeError
naming the view type and the offending type. -/
def SequenceView_check_sequence (sequence : PyVal) : PyResult Unit :=
  if PySequence_Check sequence then .ok ()
  else
    .error (.typeError (SequenceView_tp_name ++ " expected a sequence, not " ++
      typeName sequence))

/-- Embeds `SequenceView_new` from `seq_view.c`: validates the argument
with `SequenceView_check_sequence`, then allocates the view and stores a
new shared reference to the argument; nothing is allocated when the
check fails. -/
def SequenceView_new (sequence : PyVal) : PyResult PyVal :=
  match SequenceView_check_sequence sequence with
  | .error e => .error e
  | .ok _ => .ok (.view sequence)

/-- PySequence_GetItem: for a list, a negative index is first adjusted
by the length, then a bounds check either yields the element or raises
the list's own IndexError; a view delegates to its backing object; an
int is not subscriptable. -/
def PySequence_GetItem : PyVal → Int → PyResult PyVal
  | .list xs, i =>
      let j : Int := if i < 0 then i + xs.length else i
      if 0 ≤ j ∧ j < (xs.length : Int) then .ok (.int (xs.getD j.toNat 0))
      else .error (.indexError "list index out of range")
  | .view b, i => PySequence_GetItem b i
  | .int _, _ => .error (.typeError "'int' object is not subscriptable")

/-- Clamping of one bound of a step-1 slice of a list of length `n`, per
`PySlice_AdjustIndices`: negative bounds are shifted by `n` and floored
at 0, bounds past the end are capped at `n`. -/
def listClampIndex (n : Nat) (i : Int) : Nat :=
  if i < 0 then (if i + n < 0 then 0 else (i + n).toNat)
  else if (n : Int) ≤ i then n else i.toNat

/-- PySequence_GetSlice of a list: the contiguous segment between the
two clamped bounds (a step-1 slice). -/
def listSlice12 (xs : List Int) (i1 i2 : Int) : List Int :=
  let lo := listClampIndex xs.length i1
  let hi := listClampIndex xs.length i2
  (xs.drop lo).take (hi - lo)

/-- PySequence_GetSlice over the modelled universe: a list yields the
clamped step-1 segment as a fresh list; a view routes the slice through
its own subscript handler, which wraps the sliced backing in a new view;
an int cannot be sliced. -/
def PySequence_GetSlice : PyVal → Int → Int → PyResult PyVal
  | .list xs, i1, i2 => .ok (.list (listSlice12 xs i1 i2))
  | .view b, i1, i2 =>
      match PySequence_GetSlice b i1 i2 with
      | .ok sub => .ok (.view sub)
      | .error e => .error e
  | .int _, _, _ => .error (.typeError "'int' object is unsliceable")

/-- PySlice_Unpack: extracts raw `start`, `stop`, `step` from a slice
object without consulting any length.  A zero step raises ValueError; a
missing step is 1; out-of-range components are clamped to the Py_ssize_t
range (and the step additionally to at least `-PY_SSIZE_T_MAX`); missing
bounds default to the extreme values selected by the step's sign. -/
def PySlice_Unpack (rstart rstop rstep : Option Int) :
    PyResult (Int × Int × Int) :=
  if rstep = some 0 then .error (.valueError "slice step cannot be zero")
  else
    let step : Int :=
      match rstep with
      | none => 1
      | some s => max (clampSsize s) (-SSIZE_MAX)
    let start : Int :=
      match rstart with
      | none => if step < 0 then SSIZE_MAX else 0
      | some v => clampSsize v
    let stop : Int :=
      match rstop with
      | none => if step < 0 then SSIZE_MIN else SSIZE_MAX
      | some v => clampSsize v
    .ok (start, stop, step)

/-- Embeds `PySequenceView_getitem_slice` from `seq_view.c`: unpacks the
slice request, allocates a new view of the same concrete kind, and fills
it with `PySequence_GetSlice(pp->sequence, start, stop)` — the unpacked
`step` is never passed on. -/
def PySequenceView_getitem_slice (sequence : PyVal)
    (rstart rstop rstep : Option Int) : PyResult PyVal :=
  match PySlice_Unpack rstart rstop rstep with
  | .error e => .error e
  | .ok (start, stop, _step) =>
      match PySequence_GetSlice sequence start stop with
      | .ok sub => .ok (.view sub)
      | .error e => .error e

/-- Subscript keys passed to the view's `mp_subscript` handler: an
index-like object (`PyIndex_Check` true) carrying its integer value, a
slice object carrying its raw components, or any other object carrying
its type name. -/
inductive PyKey where
  | idx : Int → PyKey
  | slice : Option Int → Option Int → Option Int → PyKey
  | other : String → PyKey
deriving DecidableEq, Repr

/-- Embeds `PySequenceView_getitem` from `seq_view.c`: an index-like key
is converted with `PyNumber_AsSsize_t` (IndexError on overflow) and
delegated to `PySequence_GetItem` on the backing sequence; a slice key
goes to the slice handler; anything else raises the TypeError naming the
view type and the key's type, without touching the backing sequence. -/
def PySequenceView_getitem (sequence : PyVal) (key : PyKey) : PyResult PyVal :=
  match key with
  | .idx n =>
      if n < SSIZE_MIN ∨ SSIZE_MAX < n then
        .error (.indexError "cannot fit 'int' into an index-sized integer")
      else PySequence_GetItem sequence n
  | .slice a b c => PySequenceView_getitem_slice sequence a b c
  | .other tn =>
      .error (.typeError (SequenceView_tp_name ++
        " indices must be integers or slices, not " ++ tn))

/-- Materialization of a sequence's elements by iteration: a view's
`tp_iter` returns an iterator over its backing object, so iteration sees
through view layers; an int is not iterable. -/
def pyToList : PyVal → Option (List Int)
  | .int _ => none
  | .list xs => some xs
  | .view b => pyToList b

/-- PySequence_Index: linear search by iteration comparing each element
to the probe with Python `==`; exhaustion raises the generic abstract
ValueError. -/
def PySequence_Index (s v : PyVal) : PyResult Nat :=
  match pyToList s with
  | none =>
      .error (.typeError ("argument of type '" ++ typeName s ++
        "' is not iterable"))
  | some xs =>
      match xs.findIdx? (fun x => pyEqB (.int x) v) with
      | some i => .ok i
      | none => .error (.valueError "sequence.index(x): x not in sequence")

/-- Python `repr` of the modelled values; a view prints as
`SequenceView(<backing repr>)` per `PySequenceView_repr`. -/
def pyRepr : PyVal → String
  | .int n => toString n
  | .list xs => "[" ++ String.intercalate ", " (xs.map toString) ++ "]"
  | .view b => SequenceView_tp_name ++ "(" ++ pyRepr b ++ ")"

/-- Embeds `PySequenceView_index` from `seq_view.c`: delegates to
`PySequence_Index` and, on failure, discards the backing error and
raises the view's own ValueError built from the probe's repr and the
view type name. -/
def PySequenceView_index (sequence value : PyVal) : PyResult Nat :=
  match PySequence_Index sequence value with
  | .ok i => .ok i
  | .error _ =>
      .error (.valueError (pyRepr value ++ " is not in " ++
        SequenceView_tp_name))

/-- Embeds `PySequenceView_reversed` from `seq_view.c`: the function
body is `return NULL;` with no exception set, so every call fails and no
reverse iterator is ever produced.  `none` models the NULL return. -/
def PySequenceView_reversed (_sequence : PyVal) : Option PyVal := none

/-- Modelled from the spec: ReverseIterate produces the elements of the
backing sequence in reverse order (delegating to the backing sequence's
reverse-iteration facility if present, otherwise materializing the full
sequence and iterating it backward); the materialized result is the
reversed element list. -/
def spec_ReverseIterate (sequence : PyVal) : Option (List Int) :=
  (pyToList sequence).map List.reverse

/-- Embeds `PySequenceView_copy` from `seq_view.c`: returns the receiver
itself. -/
def PySequenceView_copy (pp : PyVal) : PyVal := pp

/-- Embeds `PySequenceView_deepcopy` from `seq_view.c`: accepts an
optional `memo` argument, ignores it, and returns the receiver
itself. -/
def PySequenceView_deepcopy (pp : PyVal) (_memo : Option PyVal) : PyVal := pp

/-- Embeds `PySequenceView_richcompare` from `seq_view.c`: every
comparison of a view is `PyObject_RichCompare(v->sequence, w, op)`. -/
def PySequenceView_richcompare (v_sequence w : PyVal) (op : CmpOp) :
    PyResult Bool :=
  pyRichCompare v_sequence w op

/-- Modelled from the spec: one bound of a standard clamped slice of a
length-`n` sequence — out-of-range bounds are clamped, not errors;
negative bounds count from the end; the floor and cap depend on the
step's direction (Python `slice.indices` semantics). -/
def specAdjustIndex (n : Nat) (step i : Int) : Int :=
  if i < 0 then
    (if i + n < 0 then (if step < 0 then -1 else 0) else i + n)
  else if (n : Int) ≤ i then (if step < 0 then (n : Int) - 1 else (n : Int))
  else i

/-- Modelled from the spec: the number of elements a standard slice with
the given adjusted bounds and step selects; a stop before start with a
positive step yields an empty result. -/
def specSliceLength (start stop step : Int) : Nat :=
  if 0 < step then
    (if start < stop then ((stop - start - 1) / step + 1).toNat else 0)
  else
    (if stop < start then ((start - stop - 1) / (-step) + 1).toNat else 0)

/-- Modelled from the spec: the elements a standard clamped slice
`(start, stop, step)` selects from `xs`, in effective order (a negative
step reverses direction). -/
def specSliceElements (xs : List Int) (start stop step : Int) : List Int :=
  let s := specAdjustIndex xs.length step start
  let e := specAdjustIndex xs.length step stop
  let len := specSliceLength s e step
  (List.range len).map (fun (k : Nat) => xs.getD (s + (k : Int) * step).toNat 0)

/-!
The `ModuleProxyBase` type of `_c_module_proxy.c`.  A proxy stores
`m_self`, a shared reference to an arbitrary referent object; reference
identity of referents is modelled by an `id` field, and the referent's
own value (which the proxy must never consult) by a `value` field.
-/

/-- A referent object as seen by the proxy: its reference identity (the
pointer) and the value its own equality would compare. -/
structure Referent where
  id : Nat
  value : Int
deriving DecidableEq, Repr

/-- The right-hand operand of a proxy comparison: either another
`ModuleProxyBase` instance (carrying its referent) or an object of some
other type (carrying its type name). -/
inductive ProxyOperand where
  | moduleProxy : Referent → ProxyOperand
  | otherObj : String → ProxyOperand
deriving DecidableEq, Repr

/-- Outcome of a `tp_richcompare` call: a boolean, or the distinguished
`Py_NotImplemented` result. -/
inductive RichCmpResult where
  | value : Bool → RichCmpResult
  | notImplemented : RichCmpResult
deriving DecidableEq, Repr

/-- True when the operand is of the same concrete proxy type as the
receiver (`PyObject_Type(self) == PyObject_Type(other)`). -/
def sameProxyType : ProxyOperand → Bool
  | .moduleProxy _ => true
  | .otherObj _ => false

/-- Embeds `PyModuleProxy_richcompare` from `_c_module_proxy.c`: any
operation other than `==`/`!=`, or any operand of a different type,
yields `Py_NotImplemented`; otherwise the referents are compared by
pointer identity (`a->m_self == b->m_self`), never by value. -/
def PyModuleProxy_richcompare (m_self : Referent) (other : ProxyOperand)
    (op : CmpOp) : RichCmpResult :=
  if (op ≠ CmpOp.eq ∧ op ≠ CmpOp.ne) ∨ sameProxyType other = false then
    .notImplemented
  else
    match other with
    | .moduleProxy b =>
        let e := m_self.id == b.id
        if op = CmpOp.eq then .value e else .value (!e)
    | .otherObj _ => .notImplemented

/-!
Helper lemmas relating the code's contiguous-segment slice to the
spec's step-1 slice semantics.
-/

/-- A take-after-drop segment of a list is the list of its elements at
the consecutive indices starting at `lo`. -/
theorem drop_take_eq_map_range (xs : List Int) :
    ∀ (m lo : Nat), lo + m ≤ xs.length →
      (xs.drop lo).take m = (List.range m).map (fun k => xs.getD (lo + k) 0) := by
  intro m
  induction m with
  | zero =>
      intro lo _
      simp
  | succ m ih =>
      intro lo h
      have hlo : lo < xs.length := by
        omega
      rw [List.drop_eq_getElem_cons hlo, List.take_succ_cons,
        List.range_succ_eq_map, List.map_cons, List.map_map]
      have h1 : xs.getD (lo + 0) 0 = xs[lo] := by
        rw [Nat.add_zero]
        exact List.getD_eq_getElem xs 0 hlo
      rw [h1, ih (lo + 1) (by omega)]
      congr 1
      apply List.map_congr_left
      intro k _
      show xs.getD (lo + 1 + k) 0 = xs.getD (lo + Nat.succ k) 0
      have h2 : lo + 1 + k = lo + Nat.succ k := by
        omega
      rw [h2]

/-- The code's slice-bound clamp agrees with the spec's step-1 bound
adjustment and never exceeds the length. -/
theorem listClampIndex_eq_specAdjust (n : Nat) (i : Int) :
    (listClampIndex n i : Int) = specAdjustIndex n 1 i
      ∧ listClampIndex n i ≤ n := by
  unfold listClampIndex specAdjustIndex
  constructor <;> (split_ifs <;> omega)

/-- The code's contiguous segment between clamped bounds is exactly the
spec's step-1 slice. -/
theorem listSlice12_eq_specSlice1 (xs : List Int) (a b : Int) :
    listSlice12 xs a b = specSliceElements xs a b 1 := by
  have ha := listClampIndex_eq_specAdjust xs.length a
  have hb := listClampIndex_eq_specAdjust xs.length b
  simp only [listSlice12, specSliceElements, ← ha.1, ← hb.1]
  set lo := listClampIndex xs.length a with hlo
  set hi := listClampIndex xs.length b with hhi
  have hlen : specSliceLength (lo : Int) (hi : Int) 1 = hi - lo := by
    unfold specSliceLength
    split_ifs <;> omega
  rw [hlen, drop_take_eq_map_range xs (hi - lo) lo (by omega)]
  apply List.map_congr_left
  intro k _
  have h3 : ((lo : Int) + (k : Int) * 1).toNat = lo + k := by
    omega
  rw [h3]

/-- Slice components already inside the Py_ssize_t range pass through
`PySlice_Unpack` unchanged. -/
theorem PySlice_Unpack_in_range (a b c : Int)
    (ha1 : SSIZE_MIN ≤ a) (ha2 : a ≤ SSIZE_MAX)
    (hb1 : SSIZE_MIN ≤ b) (hb2 : b ≤ SSIZE_MAX)
    (hc1 : -SSIZE_MAX ≤ c) (hc2 : c ≤ SSIZE_MAX) (hc0 : c ≠ 0) :
    PySlice_Unpack (some a) (some b) (some c) = .ok (a, b, c) := by
  have hMM : SSIZE_MIN < -SSIZE_MAX + 1 := by
    unfold SSIZE_MIN SSIZE_MAX
    omega
  simp only [PySlice_Unpack, Option.some.injEq, hc0, if_false]
  have hca : clampSsize a = a := by
    unfold clampSsize
    split_ifs <;> omega
  have hcb : clampSsize b = b := by
    unfold clampSsize
    split_ifs <;> omega
  have hcc : max (clampSsize c) (-SSIZE_MAX) = c := by
    unfold clampSsize
    split_ifs <;> omega
  rw [hca, hcb, hcc]

/-!
The claims.
-/

/-- C1 (counterexample): the claim says GetRange applies the full
clamped-slice semantics including the step, but the code discards the
unpacked step: slicing `[10,20,30,40]` with `(0, 4, 2)` returns a view
of all four elements, while the claimed slice semantics select
`[10, 30]`. -/
theorem getRange_step_two_not_subsampled :
    PySequenceView_getitem_slice (.list [10, 20, 30, 40]) (some 0) (some 4)
        (some 2)
      = .ok (.view (.list [10, 20, 30, 40]))
  ∧ specSliceElements [10, 20, 30, 40] 0 4 2 = [10, 30]
  ∧ ([10, 20, 30, 40] : List Int) ≠ [10, 30] := by
  refine ⟨rfl, rfl, by decide⟩

/-- C1 (amended): for a backing list and explicit in-range slice
components with a nonzero step, GetRange returns a new SequenceView of
the same kind wrapping a freshly materialized snapshot of the clamped
`[start:stop]` range — the elements a step of 1 would select, in backing
order, the requested step being ignored — and the spec's step-1 example
`GetRange(1,3,1)` on `[10,20,30,40]` indeed yields `[20,30]`. -/
theorem getRange_clamps_bounds_but_ignores_step :
    (∀ (xs : List Int) (a b c : Int),
        SSIZE_MIN ≤ a → a ≤ SSIZE_MAX → SSIZE_MIN ≤ b → b ≤ SSIZE_MAX →
        -SSIZE_MAX ≤ c → c ≤ SSIZE_MAX → c ≠ 0 →
        PySequenceView_getitem_slice (.list xs) (some a) (some b) (some c)
          = .ok (.view (.list (specSliceElements xs a b 1))))
  ∧ PySequenceView_getitem_slice (.list [10, 20, 30, 40]) (some 1) (some 3)
        (some 1)
      = .ok (.view (.list [20, 30])) := by
  constructor
  · intro xs a b c ha1 ha2 hb1 hb2 hc1 hc2 hc0
    rw [PySequenceView_getitem_slice,
      PySlice_Unpack_in_range a b c ha1 ha2 hb1 hb2 hc1 hc2 hc0]
    dsimp only [PySequence_GetSlice]
    rw [listSlice12_eq_specSlice1]
  · rfl

/-- C2 (code bug): the claim says ReverseIterate yields the elements in
reverse order and does not fail on a valid view, but the code's
`PySequenceView_reversed` is `return NULL;` with no exception set, so it
fails on every view; the spec-modelled behavior on `[10,20,30]` would
produce `[30,20,10]`. -/
theorem reversed_returns_null_but_spec_reverses :
    PySequenceView_reversed (.list [10, 20, 30]) = none
  ∧ spec_ReverseIterate (.list [10, 20, 30]) = some [30, 20, 10]
  ∧ (∀ s : PyVal, PySequenceView_reversed s = none) := by
  exact ⟨rfl, rfl, fun _ => rfl⟩

/-- C5: construction succeeds, wrapping a shared reference to the very
argument, exactly when the argument satisfies the sequence capability
set; otherwise nothing is created and it fails with a TypeError naming
the view type and the offending type. -/
theorem construct_checks_sequence_capability_atomically :
    ∀ s : PyVal,
      SequenceView_new s =
        (if hasSequenceCapabilities s then .ok (.view s)
         else .error (.typeError (SequenceView_tp_name ++
           " expected a sequence, not " ++ typeName s))) := by
  intro s
  cases s <;> rfl

/-- C3: for every backing object and every Py_ssize_t-sized integer
index, Get on the view is exactly `PySequence_GetItem` on the backing
sequence; on a backing list a nonnegative in-bounds index yields that
element, a negative in-bounds index is interpreted relative to the end,
and in particular `View([10,20,30]).Get(-1)` returns 30. -/
theorem get_forwards_to_backing_getitem :
    (∀ (s : PyVal) (i : Int), SSIZE_MIN ≤ i → i ≤ SSIZE_MAX →
        PySequenceView_getitem s (.idx i) = PySequence_GetItem s i)
  ∧ (∀ (xs : List Int) (i : Int), (xs.length : Int) ≤ SSIZE_MAX →
        0 ≤ i → i < (xs.length : Int) →
        PySequenceView_getitem (.list xs) (.idx i)
          = .ok (.int (xs.getD i.toNat 0)))
  ∧ (∀ (xs : List Int) (i : Int), (xs.length : Int) ≤ SSIZE_MAX →
        -(xs.length : Int) ≤ i → i < 0 →
        PySequenceView_getitem (.list xs) (.idx i)
          = .ok (.int (xs.getD (i + xs.length).toNat 0)))
  ∧ PySequenceView_getitem (.list [10, 20, 30]) (.idx (-1)) = .ok (.int 30) := by
  have hrange : ∀ i : Int, SSIZE_MIN ≤ i → i ≤ SSIZE_MAX →
      ¬(i < SSIZE_MIN ∨ SSIZE_MAX < i) := by
    intro i h1 h2
    omega
  refine ⟨?_, ?_, ?_, rfl⟩
  · intro s i h1 h2
    dsimp only [PySequenceView_getitem]
    rw [if_neg (hrange i h1 h2)]
  · intro xs i hlen h0 hl
    have h1 : SSIZE_MIN ≤ i := by
      unfold SSIZE_MIN SSIZE_MAX at *
      omega
    have h2 : i ≤ SSIZE_MAX := by
      omega
    dsimp only [PySequenceView_getitem]
    rw [if_neg (hrange i h1 h2)]
    simp only [PySequence_GetItem]
    rw [if_neg (by omega : ¬ i < 0), if_pos (by constructor <;> omega)]
  · intro xs i hlen hneg hl
    have h1 : SSIZE_MIN ≤ i := by
      unfold SSIZE_MIN SSIZE_MAX at *
      omega
    have h2 : i ≤ SSIZE_MAX := by
      unfold SSIZE_MIN SSIZE_MAX at *
      omega
    dsimp only [PySequenceView_getitem]
    rw [if_neg (hrange i h1 h2)]
    simp only [PySequence_GetItem]
    rw [if_pos (by omega : i < 0), if_pos (by constructor <;> omega)]

/-- C4: for every backing list and every integer index that is still out
of bounds after negative-index normalization, Get on the view fails with
the backing list's own IndexError, unchanged; in particular
`View([1,2,3]).Get(5)` fails that way. -/
theorem get_out_of_range_propagates_index_error :
    (∀ (xs : List Int) (i : Int), SSIZE_MIN ≤ i → i ≤ SSIZE_MAX →
        (i < 0 → i + (xs.length : Int) < 0) →
        (0 ≤ i → (xs.length : Int) ≤ i) →
        PySequenceView_getitem (.list xs) (.idx i)
            = .error (.indexError "list index out of range")
          ∧ PySequence_GetItem (.list xs) i
            = .error (.indexError "list index out of range"))
  ∧ PySequenceView_getitem (.list [1, 2, 3]) (.idx 5)
      = .error (.indexError "list index out of range") := by
  refine ⟨?_, rfl⟩
  intro xs i h1 h2 hn hp
  have hgi : PySequence_GetItem (.list xs) i
      = .error (.indexError "list index out of range") := by
    simp only [PySequence_GetItem]
    rw [if_neg]
    by_cases hc : i < 0
    · rw [if_pos hc]
      have := hn hc
      omega
    · rw [if_neg hc]
      have := hp (by omega)
      omega
  refine ⟨?_, hgi⟩
  dsimp only [PySequenceView_getitem]
  rw [if_neg (by omega : ¬(i < SSIZE_MIN ∨ SSIZE_MAX < i))]
  exact hgi

/-- C6: every comparison of a view against any right-hand operand is
exactly the comparison of the backing sequence against that operand,
for all six operations; in particular `View([1,2,3]) == [1,2,3]` and
`View([1,2,3]) == View([1,2,3])` are both true. -/
theorem comparisons_forward_to_backing_sequence :
    (∀ (s w : PyVal) (op : CmpOp),
        pyRichCompare (.view s) w op = PySequenceView_richcompare s w op)
  ∧ pyRichCompare (.view (.list [1, 2, 3])) (.list [1, 2, 3]) CmpOp.eq
      = .ok true
  ∧ pyRichCompare (.view (.list [1, 2, 3])) (.view (.list [1, 2, 3])) CmpOp.eq
      = .ok true := by
  refine ⟨?_, rfl, rfl⟩
  intro s w op
  cases op <;> rfl

/-- C7 (counterexample): the claim says a failed Index propagates the
backing sequence's error unchanged with the same message, but on
`View([1,2,3]).Index(5)` the code raises its own ValueError
"5 is not in SequenceView" while the backing search raises
"sequence.index(x): x not in sequence" — same kind, different
message. -/
theorem index_failure_message_replaced :
    PySequenceView_index (.list [1, 2, 3]) (.int 5)
      = .error (.valueError "5 is not in SequenceView")
  ∧ PySequence_Index (.list [1, 2, 3]) (.int 5)
      = .error (.valueError "sequence.index(x): x not in sequence")
  ∧ ("5 is not in SequenceView" : String)
      ≠ "sequence.index(x): x not in sequence" := by
  refine ⟨rfl, rfl, by decide⟩

/-- C7 (amended): Index returns the position of the first element equal
to the probe; when no element is equal it fails with a ValueError of the
same kind as the backing sequence's, but raised by the view itself with
its own message naming the probe's repr and the view type, replacing the
backing sequence's message. -/
theorem index_first_match_or_view_value_error :
    (∀ (xs : List Int) (v : PyVal) (i : Nat),
        PySequenceView_index (.list xs) v = .ok i →
          i < xs.length ∧ pyEqB (.int (xs.getD i 0)) v = true
            ∧ ∀ j, j < i → pyEqB (.int (xs.getD j 0)) v = false)
  ∧ (∀ (xs : List Int) (v : PyVal),
        (∀ x ∈ xs, pyEqB (.int x) v = false) →
          PySequenceView_index (.list xs) v
            = .error (.valueError (pyRepr v ++ " is not in " ++
                SequenceView_tp_name)))
  ∧ (∀ (xs : List Int) (v : PyVal),
        (∃ x ∈ xs, pyEqB (.int x) v = true) →
          ∃ i, PySequenceView_index (.list xs) v = .ok i) := by
  refine ⟨?_, ?_, ?_⟩
  · intro xs v i h
    simp only [PySequenceView_index, PySequence_Index, pyToList] at h
    cases hfi : xs.findIdx? (fun x => pyEqB (.int x) v) with
    | none =>
        rw [hfi] at h
        exact absurd h (by simp)
    | some k =>
        rw [hfi] at h
        have hk : k = i := by
          simpa using h
        subst hk
        obtain ⟨hlt, hidx⟩ := List.findIdx?_eq_some_iff_findIdx_eq.mp hfi
        have hchar :=
          (List.findIdx_eq (p := fun x => pyEqB (.int x) v) hlt).mp hidx
        refine ⟨hlt, ?_, ?_⟩
        · rw [List.getD_eq_getElem xs 0 hlt]
          exact hchar.1
        · intro j hj
          have hjlt : j < xs.length := by
            omega
          rw [List.getD_eq_getElem xs 0 hjlt]
          exact hchar.2 j hj
  · intro xs v hall
    have hnone : xs.findIdx? (fun x => pyEqB (.int x) v) = none :=
      List.findIdx?_eq_none_iff.mpr hall
    simp only [PySequenceView_index, PySequence_Index, pyToList, hnone]
  · intro xs v hex
    have hsome : (xs.findIdx? (fun x => pyEqB (.int x) v)).isSome = true := by
      rw [List.findIdx?_isSome, List.any_eq_true]
      simpa using hex
    obtain ⟨k, hk⟩ := Option.isSome_iff_exists.mp hsome
    refine ⟨k, ?_⟩
    simp only [PySequenceView_index, PySequence_Index, pyToList, hk]

/-- C8: Copy returns the identical view instance, DeepCopy returns the
identical instance while accepting and ignoring an optional memo
argument, Copy is idempotent, and the copy is observably equal to the
original under the view's own equality. -/
theorem copy_and_deepcopy_return_self :
    (∀ pp : PyVal, PySequenceView_copy pp = pp)
  ∧ (∀ (pp : PyVal) (memo : Option PyVal),
        PySequenceView_deepcopy pp memo = pp)
  ∧ (∀ pp : PyVal,
        PySequenceView_copy (PySequenceView_copy pp) = PySequenceView_copy pp)
  ∧ pyRichCompare (PySequenceView_copy (.view (.list [1, 2])))
        (.view (.list [1, 2])) CmpOp.eq = .ok true := by
  exact ⟨fun _ => rfl, fun _ _ => rfl, fun _ => rfl, rfl⟩

/-- C9: proxy equality holds exactly when the operand is the same proxy
kind and its referent is reference-identical — never by referent value,
so proxies of value-equal but distinct referents compare unequal — and
any other operand kind, or any ordering operation, yields the
distinguished NotImplemented result rather than true, false, or an
error. -/
theorem proxy_equality_by_referent_identity :
    (∀ r1 r2 : Referent,
        PyModuleProxy_richcompare r1 (.moduleProxy r2) CmpOp.eq
          = .value (r1.id == r2.id))
  ∧ (∀ r1 r2 : Referent,
        PyModuleProxy_richcompare r1 (.moduleProxy r2) CmpOp.ne
          = .value (!(r1.id == r2.id)))
  ∧ (∀ r : Referent,
        PyModuleProxy_richcompare r (.moduleProxy r) CmpOp.eq = .value true)
  ∧ (∀ r1 r2 : Referent, r1.value = r2.value → r1.id ≠ r2.id →
        PyModuleProxy_richcompare r1 (.moduleProxy r2) CmpOp.eq = .value false)
  ∧ (∀ (r : Referent) (t : String) (op : CmpOp),
        PyModuleProxy_richcompare r (.otherObj t) op = .notImplemented)
  ∧ (∀ (r1 r2 : Referent) (op : CmpOp), op ≠ CmpOp.eq → op ≠ CmpOp.ne →
        PyModuleProxy_richcompare r1 (.moduleProxy r2) op
          = .notImplemented) := by
  refine ⟨?_, ?_, ?_, ?_, ?_, ?_⟩
  · intro r1 r2
    simp [PyModuleProxy_richcompare, sameProxyType]
  · intro r1 r2
    simp [PyModuleProxy_richcompare, sameProxyType]
  · intro r
    simp [PyModuleProxy_richcompare, sameProxyType]
  · intro r1 r2 _ hid
    simp [PyModuleProxy_richcompare, sameProxyType]
    exact hid
  · intro r t op
    simp [PyModuleProxy_richcompare, sameProxyType]
  · intro r1 r2 op h1 h2
    rw [PyModuleProxy_richcompare, if_pos (Or.inl ⟨h1, h2⟩)]

/-- C10: a subscript key that is neither index-like nor a slice makes
Get fail with a TypeError naming the view type and the key's type, the
backing sequence is never consulted (the result is the same for every
backing), and the error is never an IndexError. -/
theorem getitem_rejects_non_index_non_slice_key :
    (∀ (sequence : PyVal) (tn : String),
        PySequenceView_getitem sequence (.other tn)
          = .error (.typeError (SequenceView_tp_name ++
              " indices must be integers or slices, not " ++ tn)))
  ∧ (∀ (s1 s2 : PyVal) (tn : String),
        PySequenceView_getitem s1 (.other tn)
          = PySequenceView_getitem s2 (.other tn))
  ∧ (∀ (sequence : PyVal) (tn msg : String),
        PySequenceView_getitem sequence (.other tn)
            = .error (.indexError msg) → False) := by
  refine ⟨fun _ _ => rfl, fun _ _ _ => rfl, ?_⟩
  intro s tn msg h
  simp only [PySequenceView_getitem] at h
  exact absurd h (by simp)

end NanoUtils
